import Mathlib

/-!
Verification of the ELP2000-82B series-evaluation core (`src/series.h`).

The repository ships only the header `series.h`, which declares the five
series-evaluation routines and the degree→radian helper and documents their
behaviour in detail; the function bodies live in a translation unit that is
not part of `src/`.  The definitions below are therefore modelled from the
specification and the header commentary, using exact real arithmetic (`ℝ`)
for the C `double` values and `ℤ` for the integer multipliers.  Tables are
modelled as total functions from the row index (`ℕ`) and the column index
(`Fin w`) so that the term count `n` delimits exactly which rows a call
reads, as in the C loops.
-/

namespace ELP

/-- Modelled from the spec: the body of `radian` (declared at
`src/series.h:31`) is absent from `src/`.  Spec §4.1: given a real value in
degrees, returns the equivalent in radians using the standard
degrees-to-radians constant, i.e. `d · π / 180`.  A total function with no
side effects. -/
noncomputable def radian (d : ℝ) : ℝ :=
  d * Real.pi / 180

/-- Modelled from the spec: the body of `compute_serie_a_sin` (declared at
`src/series.h:46`) is absent from `src/`.  Spec §4.2: for each term
`k ∈ [0, n)` accumulate `coefficients[k][0] * sin(Σⱼ multipliers[k][j] *
delaunay_arguments[j])`, with the Delaunay vector ordered `D, l′, l, F`.
Coefficient columns 1–6 (the ∂A/∂σ derivatives) are carried but never
read. -/
noncomputable def compute_serie_a_sin (delaunay_arguments : Fin 4 → ℝ)
    (multipliers : ℕ → Fin 4 → ℤ) (coefficients : ℕ → Fin 7 → ℝ) (n : ℕ) : ℝ :=
  ∑ k in Finset.range n,
    coefficients k 0 *
      Real.sin (∑ j : Fin 4, (multipliers k j : ℝ) * delaunay_arguments j)

/-- Modelled from the spec: the body of `compute_serie_a_cos` (declared at
`src/series.h:62`) is absent from `src/`.  Spec §4.3: identical to
`compute_serie_a_sin` except that the trigonometric function is cosine. -/
noncomputable def compute_serie_a_cos (delaunay_arguments : Fin 4 → ℝ)
    (multipliers : ℕ → Fin 4 → ℤ) (coefficients : ℕ → Fin 7 → ℝ) (n : ℕ) : ℝ :=
  ∑ k in Finset.range n,
    coefficients k 0 *
      Real.cos (∑ j : Fin 4, (multipliers k j : ℝ) * delaunay_arguments j)

/-- Modelled from the spec: the body of `compute_serie_b` (declared at
`src/series.h:77`) is absent from `src/`.  Spec §4.4: phase =
`multipliers[k][0]·ζ + Σ_{j=1..4} multipliers[k][j]·delaunay[j-1]`, with the
Delaunay vector ordered `D, l′, l, F`; accumulate
`coefficients[k][1] * sin(phase + coefficients[k][0])`.  Coefficient
column 2 (the approximate period `P`) is carried but never read. -/
noncomputable def compute_serie_b (precession : ℝ)
    (delaunay_arguments : Fin 4 → ℝ) (multipliers : ℕ → Fin 5 → ℤ)
    (coefficients : ℕ → Fin 3 → ℝ) (n : ℕ) : ℝ :=
  ∑ k in Finset.range n,
    coefficients k 1 *
      Real.sin ((multipliers k 0 : ℝ) * precession
        + (∑ j : Fin 4, (multipliers k j.succ : ℝ) * delaunay_arguments j)
        + coefficients k 0)

/-- Modelled from the spec: the body of `compute_serie_c` (declared at
`src/series.h:95`) is absent from `src/`.  Spec §4.5: phase =
`Σ_{j=0..7} multipliers[k][j]·planetary[j]` plus columns 8–10 times the
three Delaunay components actually used, `D`, `l`, `F`; the Delaunay vector
for this series is ordered `D, l, l′, F` (spec §4.5), so `l′` (index 2)
never contributes.  Accumulate
`coefficients[k][1] * sin(phase + coefficients[k][0])`. -/
noncomputable def compute_serie_c (planetary_arguments : Fin 8 → ℝ)
    (delaunay_arguments : Fin 4 → ℝ) (multipliers : ℕ → Fin 11 → ℤ)
    (coefficients : ℕ → Fin 3 → ℝ) (n : ℕ) : ℝ :=
  ∑ k in Finset.range n,
    coefficients k 1 *
      Real.sin ((∑ j : Fin 8,
          (multipliers k (Fin.castLE (by norm_num) j) : ℝ) * planetary_arguments j)
        + (multipliers k 8 : ℝ) * delaunay_arguments 0
        + (multipliers k 9 : ℝ) * delaunay_arguments 1
        + (multipliers k 10 : ℝ) * delaunay_arguments 3
        + coefficients k 0)

/-- Modelled from the spec: the body of `compute_serie_d` (declared at
`src/series.h:113`) is absent from `src/`.  Spec §4.6: the 11 multiplier
columns are 7 planetary terms (`Me, V, T, Ma, J, S, U`; Neptune, index 7 of
the planetary vector, excluded) followed by 4 Delaunay terms covering all of
`D, l, l′, F` (vector ordered `D, l, l′, F` as in series C).  Accumulate
`coefficients[k][1] * sin(phase + coefficients[k][0])`. -/
noncomputable def compute_serie_d (planetary_arguments : Fin 8 → ℝ)
    (delaunay_arguments : Fin 4 → ℝ) (multipliers : ℕ → Fin 11 → ℤ)
    (coefficients : ℕ → Fin 3 → ℝ) (n : ℕ) : ℝ :=
  ∑ k in Finset.range n,
    coefficients k 1 *
      Real.sin ((∑ j : Fin 7,
          (multipliers k (Fin.castLE (by norm_num) j) : ℝ) * planetary_arguments (Fin.castLE (by norm_num) j))
        + (multipliers k 7 : ℝ) * delaunay_arguments 0
        + (multipliers k 8 : ℝ) * delaunay_arguments 1
        + (multipliers k 9 : ℝ) * delaunay_arguments 2
        + (multipliers k 10 : ℝ) * delaunay_arguments 3
        + coefficients k 0)

/-- C1: `compute_serie_a_sin` returns the sum over `k ∈ [0, n)` of
`coefficients[k][0] * sin(multipliers[k][0]·D + multipliers[k][1]·l′ +
multipliers[k][2]·l + multipliers[k][3]·F)`: the phase of term `k` is the
dot product of multiplier row `k` with the argument vector, matching column
`j` to argument index `j`, and the result is the exact mathematical sum. -/
theorem compute_serie_a_sin_spec (d : Fin 4 → ℝ) (m : ℕ → Fin 4 → ℤ)
    (c : ℕ → Fin 7 → ℝ) (n : ℕ) :
    compute_serie_a_sin d m c n =
      ∑ k in Finset.range n,
        c k 0 * Real.sin ((m k 0 : ℝ) * d 0 + (m k 1 : ℝ) * d 1
          + (m k 2 : ℝ) * d 2 + (m k 3 : ℝ) * d 3) := by
  unfold compute_serie_a_sin
  refine Finset.sum_congr rfl fun k _ => ?_
  rw [Fin.sum_univ_four]

/-- C2: `compute_serie_a_cos` returns the sum over `k ∈ [0, n)` of
`coefficients[k][0] * cos(multipliers[k][0]·D + multipliers[k][1]·l′ +
multipliers[k][2]·l + multipliers[k][3]·F)`: identical to
`compute_serie_a_sin` except that the trigonometric function applied to each
term's phase is cosine rather than sine. -/
theorem compute_serie_a_cos_spec (d : Fin 4 → ℝ) (m : ℕ → Fin 4 → ℤ)
    (c : ℕ → Fin 7 → ℝ) (n : ℕ) :
    compute_serie_a_cos d m c n =
      ∑ k in Finset.range n,
        c k 0 * Real.cos ((m k 0 : ℝ) * d 0 + (m k 1 : ℝ) * d 1
          + (m k 2 : ℝ) * d 2 + (m k 3 : ℝ) * d 3) := by
  unfold compute_serie_a_cos
  refine Finset.sum_congr rfl fun k _ => ?_
  rw [Fin.sum_univ_four]

/-- C3: `compute_serie_b` returns the sum over `k ∈ [0, n)` of
`coefficients[k][1] * sin(multipliers[k][0]·ζ + multipliers[k][1]·D +
multipliers[k][2]·l′ + multipliers[k][3]·l + multipliers[k][4]·F +
coefficients[k][0])`: column 0 multiplies ζ, columns 1–4 multiply the
Delaunay vector in the order `D, l′, l, F`, coefficient column 0 is the
phase offset added inside the sine, and coefficient column 1 is the
amplitude. -/
theorem compute_serie_b_spec (ζ : ℝ) (d : Fin 4 → ℝ) (m : ℕ → Fin 5 → ℤ)
    (c : ℕ → Fin 3 → ℝ) (n : ℕ) :
    compute_serie_b ζ d m c n =
      ∑ k in Finset.range n,
        c k 1 * Real.sin ((m k 0 : ℝ) * ζ + (m k 1 : ℝ) * d 0
          + (m k 2 : ℝ) * d 1 + (m k 3 : ℝ) * d 2 + (m k 4 : ℝ) * d 3
          + c k 0) := by
  unfold compute_serie_b
  refine Finset.sum_congr rfl fun k _ => ?_
  have e1 : (0 : Fin 4).succ = (1 : Fin 5) := rfl
  have e2 : (1 : Fin 4).succ = (2 : Fin 5) := rfl
  have e3 : (2 : Fin 4).succ = (3 : Fin 5) := rfl
  have e4 : (3 : Fin 4).succ = (4 : Fin 5) := rfl
  rw [Fin.sum_univ_four, e1, e2, e3, e4]
  ring_nf

/-- C4: `compute_serie_c` returns the sum over `k ∈ [0, n)` of
`coefficients[k][1] * sin(phase_k + coefficients[k][0])` with `phase_k =
Σ_{j=0..7} multipliers[k][j]·planetary[j] + multipliers[k][8]·D +
multipliers[k][9]·l + multipliers[k][10]·F`: columns 0–7 map positionally
to the eight planetary arguments, columns 8–10 map to the Delaunay
components `D, l, F`, and the Delaunay argument `l′` (index 2 of the
series-C Delaunay vector `D, l, l′, F`) contributes nothing: replacing it
by any value leaves the result unchanged. -/
theorem compute_serie_c_spec (p : Fin 8 → ℝ) (d : Fin 4 → ℝ)
    (m : ℕ → Fin 11 → ℤ) (c : ℕ → Fin 3 → ℝ) (n : ℕ) :
    (compute_serie_c p d m c n =
      ∑ k in Finset.range n,
        c k 1 * Real.sin ((m k 0 : ℝ) * p 0 + (m k 1 : ℝ) * p 1
          + (m k 2 : ℝ) * p 2 + (m k 3 : ℝ) * p 3 + (m k 4 : ℝ) * p 4
          + (m k 5 : ℝ) * p 5 + (m k 6 : ℝ) * p 6 + (m k 7 : ℝ) * p 7
          + (m k 8 : ℝ) * d 0 + (m k 9 : ℝ) * d 1 + (m k 10 : ℝ) * d 3
          + c k 0)) ∧
    ∀ x : ℝ, compute_serie_c p (Function.update d 2 x) m c n =
      compute_serie_c p d m c n := by
  constructor
  · unfold compute_serie_c
    refine Finset.sum_congr rfl fun k _ => ?_
    have h8 : (8 : ℕ) ≤ 11 := by norm_num
    have e0 : Fin.castLE h8 (0 : Fin 8) = (0 : Fin 11) := rfl
    have e1 : Fin.castLE h8 (1 : Fin 8) = (1 : Fin 11) := rfl
    have e2 : Fin.castLE h8 (2 : Fin 8) = (2 : Fin 11) := rfl
    have e3 : Fin.castLE h8 (3 : Fin 8) = (3 : Fin 11) := rfl
    have e4 : Fin.castLE h8 (4 : Fin 8) = (4 : Fin 11) := rfl
    have e5 : Fin.castLE h8 (5 : Fin 8) = (5 : Fin 11) := rfl
    have e6 : Fin.castLE h8 (6 : Fin 8) = (6 : Fin 11) := rfl
    have e7 : Fin.castLE h8 (7 : Fin 8) = (7 : Fin 11) := rfl
    rw [Fin.sum_univ_eight, e0, e1, e2, e3, e4, e5, e6, e7]
  · intro x
    unfold compute_serie_c
    refine Finset.sum_congr rfl fun k _ => ?_
    have h0 : Function.update d 2 x 0 = d 0 := Function.update_noteq (by decide) x d
    have h1 : Function.update d 2 x 1 = d 1 := Function.update_noteq (by decide) x d
    have h3 : Function.update d 2 x 3 = d 3 := Function.update_noteq (by decide) x d
    rw [h0, h1, h3]

/-- C5: `compute_serie_d` returns the sum over `k ∈ [0, n)` of
`coefficients[k][1] * sin(phase_k + coefficients[k][0])` with `phase_k =
Σ_{j=0..6} multipliers[k][j]·planetary[j] + multipliers[k][7]·D +
multipliers[k][8]·l + multipliers[k][9]·l′ + multipliers[k][10]·F`: the 11
columns are 7 planetary terms (`Me, V, T, Ma, J, S, U`; Neptune, planetary
index 7, excluded — replacing it by any value leaves the result unchanged)
followed by the 4 Delaunay terms `D, l, l′, F`, all four included. -/
theorem compute_serie_d_spec (p : Fin 8 → ℝ) (d : Fin 4 → ℝ)
    (m : ℕ → Fin 11 → ℤ) (c : ℕ → Fin 3 → ℝ) (n : ℕ) :
    (compute_serie_d p d m c n =
      ∑ k in Finset.range n,
        c k 1 * Real.sin ((m k 0 : ℝ) * p 0 + (m k 1 : ℝ) * p 1
          + (m k 2 : ℝ) * p 2 + (m k 3 : ℝ) * p 3 + (m k 4 : ℝ) * p 4
          + (m k 5 : ℝ) * p 5 + (m k 6 : ℝ) * p 6
          + (m k 7 : ℝ) * d 0 + (m k 8 : ℝ) * d 1 + (m k 9 : ℝ) * d 2
          + (m k 10 : ℝ) * d 3 + c k 0)) ∧
    ∀ x : ℝ, compute_serie_d (Function.update p 7 x) d m c n =
      compute_serie_d p d m c n := by
  constructor
  · unfold compute_serie_d
    refine Finset.sum_congr rfl fun k _ => ?_
    have h7 : (7 : ℕ) ≤ 11 := by norm_num
    have h78 : (7 : ℕ) ≤ 8 := by norm_num
    have e0 : Fin.castLE h7 (0 : Fin 7) = (0 : Fin 11) := rfl
    have e1 : Fin.castLE h7 (1 : Fin 7) = (1 : Fin 11) := rfl
    have e2 : Fin.castLE h7 (2 : Fin 7) = (2 : Fin 11) := rfl
    have e3 : Fin.castLE h7 (3 : Fin 7) = (3 : Fin 11) := rfl
    have e4 : Fin.castLE h7 (4 : Fin 7) = (4 : Fin 11) := rfl
    have e5 : Fin.castLE h7 (5 : Fin 7) = (5 : Fin 11) := rfl
    have e6 : Fin.castLE h7 (6 : Fin 7) = (6 : Fin 11) := rfl
    have f0 : Fin.castLE h78 (0 : Fin 7) = (0 : Fin 8) := rfl
    have f1 : Fin.castLE h78 (1 : Fin 7) = (1 : Fin 8) := rfl
    have f2 : Fin.castLE h78 (2 : Fin 7) = (2 : Fin 8) := rfl
    have f3 : Fin.castLE h78 (3 : Fin 7) = (3 : Fin 8) := rfl
    have f4 : Fin.castLE h78 (4 : Fin 7) = (4 : Fin 8) := rfl
    have f5 : Fin.castLE h78 (5 : Fin 7) = (5 : Fin 8) := rfl
    have f6 : Fin.castLE h78 (6 : Fin 7) = (6 : Fin 8) := rfl
    rw [Fin.sum_univ_seven, e0, e1, e2, e3, e4, e5, e6,
      f0, f1, f2, f3, f4, f5, f6]
  · intro x
    unfold compute_serie_d
    refine Finset.sum_congr rfl fun k _ => ?_
    have hupd : ∀ j : Fin 7,
        Function.update p 7 x (Fin.castLE (by norm_num) j) =
          p (Fin.castLE (by norm_num) j) := by
      intro j
      refine Function.update_noteq ?_ x p
      refine Fin.ne_of_val_ne ?_
      simpa using Nat.ne_of_lt j.isLt
    simp only [hupd]

/-- C6: each of the five series routines invoked with term count `n = 0`
returns exactly `0`, for every argument vector, precession scalar,
multiplier table and coefficient table. -/
theorem series_empty_zero (d : Fin 4 → ℝ) (ζ : ℝ) (p : Fin 8 → ℝ)
    (mA : ℕ → Fin 4 → ℤ) (cA : ℕ → Fin 7 → ℝ)
    (mB : ℕ → Fin 5 → ℤ) (mC mD : ℕ → Fin 11 → ℤ) (cP : ℕ → Fin 3 → ℝ) :
    compute_serie_a_sin d mA cA 0 = 0 ∧
    compute_serie_a_cos d mA cA 0 = 0 ∧
    compute_serie_b ζ d mB cP 0 = 0 ∧
    compute_serie_c p d mC cP 0 = 0 ∧
    compute_serie_d p d mD cP 0 = 0 := by
  refine ⟨?_, ?_, ?_, ?_, ?_⟩ <;>
    simp [compute_serie_a_sin, compute_serie_a_cos, compute_serie_b,
      compute_serie_c, compute_serie_d]

/-- A sum over `Finset.range n` is unchanged by precomposing the summand
with the transposition of two indices `p, q < n`. -/
theorem sum_range_swap_eq (f : ℕ → ℝ) (n p q : ℕ) (hp : p < n) (hq : q < n) :
    ∑ k in Finset.range n, f (Equiv.swap p q k) = ∑ k in Finset.range n, f k := by
  have key : ∀ k, k < n → Equiv.swap p q k < n := by
    intro k hk
    rcases eq_or_ne k p with rfl | hkp
    · rw [Equiv.swap_apply_left]; exact hq
    rcases eq_or_ne k q with rfl | hkq
    · rw [Equiv.swap_apply_right]; exact hp
    · rw [Equiv.swap_apply_of_ne_of_ne hkp hkq]; exact hk
  refine Finset.sum_equiv (Equiv.swap p q) (fun k => ?_) (fun k _ => rfl)
  simp only [Finset.mem_range]
  constructor
  · exact key k
  · intro hk
    have h2 := key _ hk
    rwa [Equiv.swap_apply_self] at h2

/-- C7: for each of the five series routines, simultaneously swapping two
term indices `p, q < n` (exchanging multiplier row `p` with row `q` and
coefficient row `p` with row `q`, all other inputs unchanged) leaves the
returned scalar unchanged, exactly, over the exact-real semantics. -/
theorem series_swap_invariant (d : Fin 4 → ℝ) (ζ : ℝ) (pl : Fin 8 → ℝ)
    (mA : ℕ → Fin 4 → ℤ) (cA : ℕ → Fin 7 → ℝ)
    (mB : ℕ → Fin 5 → ℤ) (mC mD : ℕ → Fin 11 → ℤ) (cB cC cD : ℕ → Fin 3 → ℝ)
    (n p q : ℕ) (hp : p < n) (hq : q < n) :
    compute_serie_a_sin d (fun k => mA (Equiv.swap p q k))
        (fun k => cA (Equiv.swap p q k)) n = compute_serie_a_sin d mA cA n ∧
    compute_serie_a_cos d (fun k => mA (Equiv.swap p q k))
        (fun k => cA (Equiv.swap p q k)) n = compute_serie_a_cos d mA cA n ∧
    compute_serie_b ζ d (fun k => mB (Equiv.swap p q k))
        (fun k => cB (Equiv.swap p q k)) n = compute_serie_b ζ d mB cB n ∧
    compute_serie_c pl d (fun k => mC (Equiv.swap p q k))
        (fun k => cC (Equiv.swap p q k)) n = compute_serie_c pl d mC cC n ∧
    compute_serie_d pl d (fun k => mD (Equiv.swap p q k))
        (fun k => cD (Equiv.swap p q k)) n = compute_serie_d pl d mD cD n := by
  refine ⟨?_, ?_, ?_, ?_, ?_⟩
  · exact sum_range_swap_eq
      (fun t => cA t 0 * Real.sin (∑ j : Fin 4, (mA t j : ℝ) * d j)) n p q hp hq
  · exact sum_range_swap_eq
      (fun t => cA t 0 * Real.cos (∑ j : Fin 4, (mA t j : ℝ) * d j)) n p q hp hq
  · exact sum_range_swap_eq
      (fun t => cB t 1 * Real.sin ((mB t 0 : ℝ) * ζ
        + (∑ j : Fin 4, (mB t j.succ : ℝ) * d j) + cB t 0)) n p q hp hq
  · exact sum_range_swap_eq
      (fun t => cC t 1 * Real.sin ((∑ j : Fin 8,
          (mC t (Fin.castLE (by norm_num) j) : ℝ) * pl j)
        + (mC t 8 : ℝ) * d 0 + (mC t 9 : ℝ) * d 1 + (mC t 10 : ℝ) * d 3
        + cC t 0)) n p q hp hq
  · exact sum_range_swap_eq
      (fun t => cD t 1 * Real.sin ((∑ j : Fin 7,
          (mD t (Fin.castLE (by norm_num) j) : ℝ)
            * pl (Fin.castLE (by norm_num) j))
        + (mD t 7 : ℝ) * d 0 + (mD t 8 : ℝ) * d 1 + (mD t 9 : ℝ) * d 2
        + (mD t 10 : ℝ) * d 3 + cD t 0)) n p q hp hq

/-- Witness for C7: the swap invariance instantiated at `n = 2`, `p = 0`,
`q = 1` with concrete constant tables. -/
theorem series_swap_invariant_witness :
    (0 : ℕ) < 2 ∧ (1 : ℕ) < 2 ∧
    (compute_serie_a_sin (fun _ => 0)
        (fun k => (fun _ _ => (1 : ℤ)) (Equiv.swap 0 1 k))
        (fun k => (fun _ _ => (1 : ℝ)) (Equiv.swap 0 1 k)) 2 =
      compute_serie_a_sin (fun _ => 0) (fun _ _ => 1) (fun _ _ => 1) 2 ∧
    compute_serie_a_cos (fun _ => 0)
        (fun k => (fun _ _ => (1 : ℤ)) (Equiv.swap 0 1 k))
        (fun k => (fun _ _ => (1 : ℝ)) (Equiv.swap 0 1 k)) 2 =
      compute_serie_a_cos (fun _ => 0) (fun _ _ => 1) (fun _ _ => 1) 2 ∧
    compute_serie_b 0 (fun _ => 0)
        (fun k => (fun _ _ => (1 : ℤ)) (Equiv.swap 0 1 k))
        (fun k => (fun _ _ => (1 : ℝ)) (Equiv.swap 0 1 k)) 2 =
      compute_serie_b 0 (fun _ => 0) (fun _ _ => 1) (fun _ _ => 1) 2 ∧
    compute_serie_c (fun _ => 0) (fun _ => 0)
        (fun k => (fun _ _ => (1 : ℤ)) (Equiv.swap 0 1 k))
        (fun k => (fun _ _ => (1 : ℝ)) (Equiv.swap 0 1 k)) 2 =
      compute_serie_c (fun _ => 0) (fun _ => 0) (fun _ _ => 1) (fun _ _ => 1) 2 ∧
    compute_serie_d (fun _ => 0) (fun _ => 0)
        (fun k => (fun _ _ => (1 : ℤ)) (Equiv.swap 0 1 k))
        (fun k => (fun _ _ => (1 : ℝ)) (Equiv.swap 0 1 k)) 2 =
      compute_serie_d (fun _ => 0) (fun _ => 0) (fun _ _ => 1) (fun _ _ => 1) 2) :=
  ⟨by decide, by decide,
    series_swap_invariant (fun _ => 0) 0 (fun _ => 0)
      (fun _ _ => 1) (fun _ _ => 1) (fun _ _ => 1) (fun _ _ => 1)
      (fun _ _ => 1) (fun _ _ => 1) (fun _ _ => 1) (fun _ _ => 1)
      2 0 1 (by decide) (by decide)⟩

/-- C8: if every multiplier row read by the call (rows `k < n`) is all
zeros, then `compute_serie_c` and `compute_serie_d` each return
`Σ_{k<n} coefficients[k][1] * sin(coefficients[k][0])`, and this value is
the same for every choice of planetary argument vector and Delaunay
argument vector. -/
theorem series_c_d_zero_multipliers (pl : Fin 8 → ℝ) (d : Fin 4 → ℝ)
    (m : ℕ → Fin 11 → ℤ) (c : ℕ → Fin 3 → ℝ) (n : ℕ)
    (hm : ∀ k, k < n → ∀ j, m k j = 0) :
    compute_serie_c pl d m c n =
      (∑ k in Finset.range n, c k 1 * Real.sin (c k 0)) ∧
    compute_serie_d pl d m c n =
      (∑ k in Finset.range n, c k 1 * Real.sin (c k 0)) ∧
    (∀ (pa : Fin 8 → ℝ) (da : Fin 4 → ℝ),
      compute_serie_c pa da m c n = compute_serie_c pl d m c n) ∧
    (∀ (pa : Fin 8 → ℝ) (da : Fin 4 → ℝ),
      compute_serie_d pa da m c n = compute_serie_d pl d m c n) := by
  have keyc : ∀ (pa : Fin 8 → ℝ) (da : Fin 4 → ℝ),
      compute_serie_c pa da m c n =
        ∑ k in Finset.range n, c k 1 * Real.sin (c k 0) := by
    intro pa da
    unfold compute_serie_c
    refine Finset.sum_congr rfl fun k hk => ?_
    rw [Finset.mem_range] at hk
    simp [hm k hk]
  have keyd : ∀ (pa : Fin 8 → ℝ) (da : Fin 4 → ℝ),
      compute_serie_d pa da m c n =
        ∑ k in Finset.range n, c k 1 * Real.sin (c k 0) := by
    intro pa da
    unfold compute_serie_d
    refine Finset.sum_congr rfl fun k hk => ?_
    rw [Finset.mem_range] at hk
    simp [hm k hk]
  exact ⟨keyc pl d, keyd pl d,
    fun pa da => (keyc pa da).trans (keyc pl d).symm,
    fun pa da => (keyd pa da).trans (keyd pl d).symm⟩

/-- Witness for C8: the all-zero-multipliers reduction instantiated at
`n = 1` with a concrete constant coefficient table and nonzero argument
vectors. -/
theorem series_c_d_zero_multipliers_witness :
    (∀ k, k < 1 → ∀ j : Fin 11, (fun _ _ => (0 : ℤ)) k j = 0) ∧
    (compute_serie_c (fun _ => 5) (fun _ => 7) (fun _ _ => 0) (fun _ _ => 1) 1 =
      (∑ _k in Finset.range 1, (1 : ℝ) * Real.sin 1) ∧
    compute_serie_d (fun _ => 5) (fun _ => 7) (fun _ _ => 0) (fun _ _ => 1) 1 =
      (∑ _k in Finset.range 1, (1 : ℝ) * Real.sin 1) ∧
    (∀ (pa : Fin 8 → ℝ) (da : Fin 4 → ℝ),
      compute_serie_c pa da (fun _ _ => 0) (fun _ _ => 1) 1 =
        compute_serie_c (fun _ => 5) (fun _ => 7) (fun _ _ => 0) (fun _ _ => 1) 1) ∧
    (∀ (pa : Fin 8 → ℝ) (da : Fin 4 → ℝ),
      compute_serie_d pa da (fun _ _ => 0) (fun _ _ => 1) 1 =
        compute_serie_d (fun _ => 5) (fun _ => 7) (fun _ _ => 0) (fun _ _ => 1) 1)) :=
  ⟨fun _ _ _ => rfl,
    series_c_d_zero_multipliers (fun _ => 5) (fun _ => 7)
      (fun _ _ => 0) (fun _ _ => 1) 1 (fun _ _ _ => rfl)⟩

/-- C9: two-run noninterference of the unused coefficient columns.  For
`compute_serie_a_sin` and `compute_serie_a_cos`, two invocations whose
coefficient tables agree on column 0 (and may differ arbitrarily in
columns 1–6, the ∂A/∂σ derivative columns) return the same result; for
`compute_serie_b`, `compute_serie_c` and `compute_serie_d`, two invocations
whose coefficient tables agree on columns 0 and 1 (and may differ
arbitrarily in column 2, the approximate period `P`) return the same
result. -/
theorem unused_columns_noninterference (d : Fin 4 → ℝ) (ζ : ℝ)
    (pl : Fin 8 → ℝ) (mA : ℕ → Fin 4 → ℤ) (c1 c2 : ℕ → Fin 7 → ℝ)
    (mB : ℕ → Fin 5 → ℤ) (mC mD : ℕ → Fin 11 → ℤ)
    (b1 b2 : ℕ → Fin 3 → ℝ) (n : ℕ)
    (hA : ∀ k, c1 k 0 = c2 k 0)
    (hB0 : ∀ k, b1 k 0 = b2 k 0) (hB1 : ∀ k, b1 k 1 = b2 k 1) :
    compute_serie_a_sin d mA c1 n = compute_serie_a_sin d mA c2 n ∧
    compute_serie_a_cos d mA c1 n = compute_serie_a_cos d mA c2 n ∧
    compute_serie_b ζ d mB b1 n = compute_serie_b ζ d mB b2 n ∧
    compute_serie_c pl d mC b1 n = compute_serie_c pl d mC b2 n ∧
    compute_serie_d pl d mD b1 n = compute_serie_d pl d mD b2 n := by
  refine ⟨?_, ?_, ?_, ?_, ?_⟩
  · unfold compute_serie_a_sin
    exact Finset.sum_congr rfl fun k _ => by rw [hA k]
  · unfold compute_serie_a_cos
    exact Finset.sum_congr rfl fun k _ => by rw [hA k]
  · unfold compute_serie_b
    exact Finset.sum_congr rfl fun k _ => by rw [hB0 k, hB1 k]
  · unfold compute_serie_c
    exact Finset.sum_congr rfl fun k _ => by rw [hB0 k, hB1 k]
  · unfold compute_serie_d
    exact Finset.sum_congr rfl fun k _ => by rw [hB0 k, hB1 k]

/-- Witness for C9: the noninterference theorem instantiated at `n = 1`
with coefficient tables that agree on the used columns and differ on the
unused ones (columns 1–6 hold 2 versus 3 in the Main-Problem tables;
column 2 holds 5 versus 6 in the `φ, A, P` tables). -/
theorem unused_columns_noninterference_witness :
    (∀ k : ℕ, (fun _ j => if j = 0 then (1 : ℝ) else 2) k 0 =
      (fun _ j => if j = 0 then (1 : ℝ) else 3) k 0) ∧
    (∀ k : ℕ, (fun _ j => if j = 2 then (5 : ℝ) else 1) k 0 =
      (fun _ j => if j = 2 then (6 : ℝ) else 1) k 0) ∧
    (∀ k : ℕ, (fun _ j => if j = 2 then (5 : ℝ) else 1) k 1 =
      (fun _ j => if j = 2 then (6 : ℝ) else 1) k 1) ∧
    (compute_serie_a_sin (fun _ => 1) (fun _ _ => 1)
        (fun _ j => if j = 0 then 1 else 2) 1 =
      compute_serie_a_sin (fun _ => 1) (fun _ _ => 1)
        (fun _ j => if j = 0 then 1 else 3) 1 ∧
    compute_serie_a_cos (fun _ => 1) (fun _ _ => 1)
        (fun _ j => if j = 0 then 1 else 2) 1 =
      compute_serie_a_cos (fun _ => 1) (fun _ _ => 1)
        (fun _ j => if j = 0 then 1 else 3) 1 ∧
    compute_serie_b 1 (fun _ => 1) (fun _ _ => 1)
        (fun _ j => if j = 2 then 5 else 1) 1 =
      compute_serie_b 1 (fun _ => 1) (fun _ _ => 1)
        (fun _ j => if j = 2 then 6 else 1) 1 ∧
    compute_serie_c (fun _ => 1) (fun _ => 1) (fun _ _ => 1)
        (fun _ j => if j = 2 then 5 else 1) 1 =
      compute_serie_c (fun _ => 1) (fun _ => 1) (fun _ _ => 1)
        (fun _ j => if j = 2 then 6 else 1) 1 ∧
    compute_serie_d (fun _ => 1) (fun _ => 1) (fun _ _ => 1)
        (fun _ j => if j = 2 then 5 else 1) 1 =
      compute_serie_d (fun _ => 1) (fun _ => 1) (fun _ _ => 1)
        (fun _ j => if j = 2 then 6 else 1) 1) :=
  ⟨fun _ => by simp, fun _ => by simp, fun _ => by simp,
    unused_columns_noninterference (fun _ => 1) 1 (fun _ => 1) (fun _ _ => 1)
      (fun _ j => if j = 0 then 1 else 2) (fun _ j => if j = 0 then 1 else 3)
      (fun _ _ => 1) (fun _ _ => 1) (fun _ _ => 1)
      (fun _ j => if j = 2 then 5 else 1) (fun _ j => if j = 2 then 6 else 1) 1
      (fun _ => by simp) (fun _ => by simp) (fun _ => by simp)⟩

/-- C10: `radian` is a total function on `ℝ` (hence defined on all finite
reals, with no side effects or failure modes) and converts degrees to
radians: `radian d = d · π / 180` for every real `d`; in particular
`radian 180` is within `1e-9` of `π` (here exactly `π`), `radian 0 = 0`
exactly, and `radian (-90)` is within `1e-9` of `-π/2` (here exactly
`-π/2`). -/
theorem radian_spec :
    (∀ x : ℝ, radian x = x * Real.pi / 180) ∧
    |radian 180 - Real.pi| ≤ 1e-9 ∧
    radian 0 = 0 ∧
    |radian (-90) + Real.pi / 2| ≤ 1e-9 := by
  refine ⟨fun x => rfl, ?_, ?_, ?_⟩
  · unfold radian
    rw [show (180 : ℝ) * Real.pi / 180 - Real.pi = 0 by ring]
    norm_num
  · unfold radian
    ring
  · unfold radian
    rw [show (-90 : ℝ) * Real.pi / 180 + Real.pi / 2 = 0 by ring]
    norm_num

end ELP
